import Mathlib

/-!
Verification of the ECG quality checker (src/ecg_quality/ECGQualityChecker.py)
against its natural-language specification.

Shallow embedding conventions:
* real-valued samples and scores are rationals (ℚ);
* an IEEE float that may be NaN is `Option ℚ`, with `none` standing for NaN
  (the only NaN source in this program is the 0/0 division on zero-count
  positions in `_calc_precise_scores`);
* numpy arrays (the accumulation buffers) are functions `ℕ → _` together with
  an explicit length, materialized into lists at the end of the pipeline;
* the classifier (`self.model.process_ecg`) and the signal cleaner
  (`nk.ecg_clean`) are external collaborators and appear as function fields
  of the checker state.
-/

set_option maxHeartbeats 1000000

namespace EcgQuality

/-- Classification mode: the `return_mode` constructor argument
(`score`, `three_value`, `binary_clean`, `binary_qrs`). -/
inductive Mode where
  | score
  | three_value
  | binary_clean
  | binary_qrs
deriving DecidableEq, Repr

/-- Output granularity: the `return_type` constructor argument
(`full` or `intervals`). -/
inductive RetType where
  | full
  | intervals
deriving DecidableEq, Repr

/-- An IEEE float value that may be NaN; `none` is NaN. -/
abbrev EFloat := Option ℚ

/-- IEEE comparison `x < t`: every comparison with NaN is false. -/
def fltLt (x : EFloat) (t : ℚ) : Bool :=
  match x with
  | none => false
  | some v => decide (v < t)

/-- The checker object state after `__init__` (lines 133-144 of the source):
resolved window length (`self.input_length`), resolved stride (`self.stride`),
mode, thresholds, granularity, flags, and the two external collaborators
(`self.model.process_ecg` and `nk.ecg_clean`). -/
structure Checker where
  input_length : ℕ
  stride : ℕ
  return_mode : Mode
  return_type : RetType
  thresholds : List ℚ
  clean_data : Bool
  check_window : Bool
  min_window : ℚ
  model : List ℚ → ℚ
  cleaner : List ℚ → List ℚ

/-- numpy `np.min` on a nonempty array (the source only applies it to windows
of length `input_length` ≥ 1; the `[]` case is unreachable). -/
def npMin : List ℚ → ℚ
  | [] => 0
  | x :: xs => xs.foldl min x

/-- numpy `np.max` on a nonempty array (same remark as `npMin`). -/
def npMax : List ℚ → ℚ
  | [] => 0
  | x :: xs => xs.foldl max x

/-- Source `_check_window_smaller` (lines 177-183): whether
`max(window) - min(window) < self.min_window`.
Note that the source calls this unconditionally from both processing loops;
the stored `self.check_window` flag is never read. -/
def _check_window_smaller (c : Checker) (window_signal : List ℚ) : Bool :=
  decide (npMax window_signal - npMin window_signal < c.min_window)

/-- The per-window score of lines 193 and 210:
`1.0 if self._check_window_smaller(win) else self.model.process_ecg(win)`. -/
def windowScore (c : Checker) (window_signal : List ℚ) : ℚ :=
  if _check_window_smaller c window_signal then 1 else c.model window_signal

/-- The window plan `range(0, len(signal) - self.input_length + 1, self.stride)`
(lines 192 and 206): start offsets `0, S, 2S, …` with `start + L ≤ N`.
Empty when `N < L`. Assumes `S ≥ 1` (Python `range` rejects step 0; the
resolved stride is always ≥ 1 second of samples). -/
def windowStarts (N L S : ℕ) : List ℕ :=
  if N < L then [] else (List.range ((N - L) / S + 1)).map (· * S)

/-- Accumulation state: the parallel numpy arrays `output` (sum of scores) and
`win_count` (contribution counts), as functions with an explicit length. -/
structure Acc where
  len : ℕ
  sum : ℕ → ℚ
  cnt : ℕ → ℕ

/-- One iteration of the accumulation loops (lines 192-195 and 206-212):
score the window `signal[w : w + L]`, then
`output[a:b] += score` and `win_count[a:b] += 1`, where `(a, b) = toIdx w`
(`(w, w + L)` in full mode; `(w // S, (w + L) // S)` in interval mode).
numpy slice assignment clamps the upper bound at the array length, hence
`min b acc.len`. -/
def accStep (c : Checker) (signal : List ℚ) (toIdx : ℕ → ℕ × ℕ) (acc : Acc)
    (w : ℕ) : Acc :=
  let score := windowScore c ((signal.drop w).take c.input_length)
  let a := (toIdx w).1
  let b := (toIdx w).2
  { len := acc.len
    sum := fun j => if a ≤ j ∧ j < min b acc.len then acc.sum j + score else acc.sum j
    cnt := fun j => if a ≤ j ∧ j < min b acc.len then acc.cnt j + 1 else acc.cnt j }

/-- The whole accumulation loop: fold `accStep` over the window plan starting
from zero-filled buffers of length `len` (`np.zeros`). -/
def runAcc (c : Checker) (signal : List ℚ) (toIdx : ℕ → ℕ × ℕ) (len : ℕ) : Acc :=
  (windowStarts signal.length c.input_length c.stride).foldl
    (accStep c signal toIdx) ⟨len, fun _ => 0, fun _ => 0⟩

/-- Index map of the full-granularity loop: window `w` covers buffer
positions `[w, w + L)`. -/
def fullIdx (c : Checker) : ℕ → ℕ × ℕ :=
  fun w => (w, w + c.input_length)

/-- Index map of the interval-granularity loop (lines 207-208):
`a = w // S`, `b = (w + L) // S`. -/
def intervalIdx (c : Checker) : ℕ → ℕ × ℕ :=
  fun w => (w / c.stride, (w + c.input_length) / c.stride)

/-- The optional cleaning step (lines 186-187 and 200-201):
`signal = nk.ecg_clean(signal, …)` when `self.clean_data`. -/
def cleanedSignal (c : Checker) (s : List ℚ) : List ℚ :=
  if c.clean_data then c.cleaner s else s

/-- numpy `np.divide` elementwise on the reachable states of this program:
`0 / 0` is NaN (`none`). A nonzero numerator with a zero count never occurs
(`runAcc_cnt_zero_sum` below), so the infinity case of IEEE division does not
arise. -/
def npDivide (s : ℚ) (n : ℕ) : EFloat :=
  if n = 0 then none else some (s / (n : ℚ))

/-- The mean scores `np.divide(scores, win_counts)` of line 233, materialized
as a list of possibly-NaN floats. -/
def preciseScores (acc : Acc) : List EFloat :=
  (List.range acc.len).map (fun j => npDivide (acc.sum j) (acc.cnt j))

/-- The elementwise map of `_get_binary` (line 216):
`1.0 if x < self.thresholds[0] else 2.0`. NaN compares false, hence maps
to 2.0. -/
def binaryMapper (c : Checker) (x : EFloat) : EFloat :=
  if fltLt x (c.thresholds.getD 0 0) then some 1 else some 2

/-- Source `_get_binary` (lines 215-216). -/
def _get_binary (c : Checker) (scores : List EFloat) : List EFloat :=
  scores.map (binaryMapper c)

/-- The inner `mapper` of `_get_three_value` (lines 221-227). NaN compares
false on both tests, hence maps to 3.0. -/
def threeMapper (c : Checker) (x : EFloat) : EFloat :=
  if fltLt x (c.thresholds.getD 0 0) then some 1
  else if fltLt x (c.thresholds.getD 1 0) then some 2
  else some 3

/-- Source `_get_three_value` (lines 219-228). -/
def _get_three_value (c : Checker) (scores : List EFloat) : List EFloat :=
  scores.map (threeMapper c)

/-- Source `_calc_precise_scores` (lines 230-241): divide sums by counts
(NaN on zero counts, with the numpy warning suppressed), then dispatch on
`self.return_mode`. -/
def _calc_precise_scores (c : Checker) (acc : Acc) : List EFloat :=
  let scores := preciseScores acc
  match c.return_mode with
  | Mode.score => scores
  | Mode.binary_clean => _get_binary c scores
  | Mode.binary_qrs => _get_binary c scores
  | Mode.three_value => _get_three_value c scores

/-- Source `_process_signal_full` (lines 185-196). -/
def _process_signal_full (c : Checker) (s : List ℚ) : List EFloat :=
  let signal := cleanedSignal c s
  _calc_precise_scores c (runAcc c signal (fullIdx c) signal.length)

/-- Source `_process_signal_interval` (lines 198-213); the buffers have
length `len(signal) // self.stride` (lines 203-204). -/
def _process_signal_interval (c : Checker) (s : List ℚ) : List EFloat :=
  let signal := cleanedSignal c s
  _calc_precise_scores c (runAcc c signal (intervalIdx c) (signal.length / c.stride))

/-- Source `process_signal` (lines 146-173): dispatch on `self.return_type`. -/
def process_signal (c : Checker) (s : List ℚ) : List EFloat :=
  match c.return_type with
  | RetType.full => _process_signal_full c s
  | RetType.intervals => _process_signal_interval c s

/-- The accumulator state each granularity reaches just before
`_calc_precise_scores`. -/
def finalAcc (c : Checker) (s : List ℚ) : Acc :=
  let signal := cleanedSignal c s
  match c.return_type with
  | RetType.full => runAcc c signal (fullIdx c) signal.length
  | RetType.intervals => runAcc c signal (intervalIdx c) (signal.length / c.stride)

/-- The method `process_signal` with the receiver state threaded explicitly:
its body (and everything it calls) only reads `self`, never assigns an
attribute, so the state-passing embedding returns the receiver unchanged. -/
def process_signal_method (c : Checker) (s : List ℚ) : List EFloat × Checker :=
  (process_signal c s, c)

/-- The `thresholds` constructor argument as Python receives it: absent
(`None`), a bare float, or a list of floats. -/
inductive ThresholdArg where
  | absent
  | flt (t : ℚ)
  | lst (l : List ℚ)
deriving DecidableEq, Repr

/-- The Python exceptions the threshold-validation block can raise:
`ValueError` (with its message) from the explicit checks, and `TypeError`
from applying `len` to `None` or to a float. -/
inductive InitError where
  | valueError (msg : String)
  | typeError
deriving DecidableEq, Repr

/-- numpy `np.sort` (ascending), as applied to the threshold list on
line 122. -/
def npSort (l : List ℚ) : List ℚ :=
  List.insertionSort (fun a b => a ≤ b) l

/-- The effective threshold argument after the default lookup of
lines 103-104: absent thresholds are replaced by the value the
default-thresholds registry (`utils.get_default_thresholds`, an external
collaborator whose source is not in the repository snapshot) returns for
this model and mode. -/
def effectiveThresholds (supplied defaultTh : ThresholdArg) : ThresholdArg :=
  match supplied with
  | ThresholdArg.absent => defaultTh
  | x => x

/-- The mode-dependent part of the threshold validation (lines 107-122),
applied to the effective threshold argument:
* `score` mode requires it to still be `None` (lines 107-109);
* the binary modes first coerce a bare float `t` to `[t]` (lines 111-112),
  then require length 1 and the value in `[0, 1]` (lines 113-116) —
  applying `len` to `None` raises `TypeError`;
* `three_value` requires length 2 and both values in `[0, 1]`
  (lines 117-121) — `len` of `None` or of a float raises `TypeError` —
  and sorts the pair before storage (line 122).
On success it returns the stored `self.thresholds` value. -/
def validateThresholdsCore (mode : Mode) (th : ThresholdArg) :
    Except InitError ThresholdArg :=
  match mode with
  | Mode.score =>
      match th with
      | ThresholdArg.absent => Except.ok ThresholdArg.absent
      | _ => Except.error (InitError.valueError "Threshold count does not correspond to return mode")
  | Mode.binary_clean | Mode.binary_qrs =>
      let th2 := match th with
        | ThresholdArg.flt t => ThresholdArg.lst [t]
        | x => x
      match th2 with
      | ThresholdArg.absent => Except.error InitError.typeError
      | ThresholdArg.flt _ => Except.error InitError.typeError
      | ThresholdArg.lst l =>
          if l.length ≠ 1 then
            Except.error (InitError.valueError "Threshold count does not correspond to return mode")
          else if ¬ (0 ≤ l.getD 0 0 ∧ l.getD 0 0 ≤ 1) then
            Except.error (InitError.valueError "Threshold value not in 0 to 1 interval")
          else Except.ok (ThresholdArg.lst l)
  | Mode.three_value =>
      match th with
      | ThresholdArg.absent => Except.error InitError.typeError
      | ThresholdArg.flt _ => Except.error InitError.typeError
      | ThresholdArg.lst l =>
          if l.length ≠ 2 then
            Except.error (InitError.valueError "Threshold count does not correspond to return mode")
          else if ¬ (0 ≤ l.getD 0 0 ∧ l.getD 0 0 ≤ 1) ∨ ¬ (0 ≤ l.getD 1 0 ∧ l.getD 1 0 ≤ 1) then
            Except.error (InitError.valueError "Threshold value not in 0 to 1 interval")
          else Except.ok (ThresholdArg.lst (npSort l))

/-- The whole threshold-validation block of `__init__` (lines 103-122):
default lookup, then the mode-dependent checks. -/
def validateThresholds (mode : Mode) (supplied defaultTh : ThresholdArg) :
    Except InitError ThresholdArg :=
  validateThresholdsCore mode (effectiveThresholds supplied defaultTh)

/-- The claim's threshold arity/range rule, following the specification's
words: continuous mode accepts absent or empty thresholds; the binary modes
exactly one value in `[0, 1]`; `three_value` exactly two values each in
`[0, 1]`. Used only to compare the claimed rule with `validateThresholds`. -/
def specThresholdRule : Mode → ThresholdArg → Bool
  | Mode.score, ThresholdArg.absent => true
  | Mode.score, ThresholdArg.lst [] => true
  | Mode.score, _ => false
  | Mode.binary_clean, ThresholdArg.flt t | Mode.binary_qrs, ThresholdArg.flt t =>
      decide (0 ≤ t ∧ t ≤ 1)
  | Mode.binary_clean, ThresholdArg.lst [t] | Mode.binary_qrs, ThresholdArg.lst [t] =>
      decide (0 ≤ t ∧ t ≤ 1)
  | Mode.binary_clean, _ | Mode.binary_qrs, _ => false
  | Mode.three_value, ThresholdArg.lst [a, b] =>
      decide ((0 ≤ a ∧ a ≤ 1) ∧ (0 ≤ b ∧ b ≤ 1))
  | Mode.three_value, _ => false

/-- The amended threshold rule: as `specThresholdRule`, except that
continuous (`score`) mode accepts only absent thresholds — an empty list is
rejected by line 108 (`thresholds is not None`). -/
def amendedThresholdRule : Mode → ThresholdArg → Bool
  | Mode.score, ThresholdArg.absent => true
  | Mode.score, _ => false
  | Mode.binary_clean, ThresholdArg.flt t | Mode.binary_qrs, ThresholdArg.flt t =>
      decide (0 ≤ t ∧ t ≤ 1)
  | Mode.binary_clean, ThresholdArg.lst [t] | Mode.binary_qrs, ThresholdArg.lst [t] =>
      decide (0 ≤ t ∧ t ≤ 1)
  | Mode.binary_clean, _ | Mode.binary_qrs, _ => false
  | Mode.three_value, ThresholdArg.lst [a, b] =>
      decide ((0 ≤ a ∧ a ≤ 1) ∧ (0 ≤ b ∧ b ≤ 1))
  | Mode.three_value, _ => false

lemma process_signal_eq (c : Checker) (s : List ℚ) :
    process_signal c s = _calc_precise_scores c (finalAcc c s) := by
  unfold process_signal finalAcc _process_signal_full _process_signal_interval
  cases c.return_type <;> rfl

lemma foldl_invariant {α β : Type} (g : α → β → α) (P : α → Prop)
    (hstep : ∀ a b, P a → P (g a b)) :
    ∀ (ws : List β) (a : α), P a → P (ws.foldl g a)
  | [], _, h => h
  | w :: ws, a, h => foldl_invariant g P hstep ws (g a w) (hstep a w h)

lemma accStep_len (c : Checker) (sig : List ℚ) (toIdx : ℕ → ℕ × ℕ) (acc : Acc)
    (w : ℕ) : (accStep c sig toIdx acc w).len = acc.len := rfl

lemma accStep_sum (c : Checker) (sig : List ℚ) (toIdx : ℕ → ℕ × ℕ) (acc : Acc)
    (w j : ℕ) :
    (accStep c sig toIdx acc w).sum j =
      if (toIdx w).1 ≤ j ∧ j < min (toIdx w).2 acc.len
      then acc.sum j + windowScore c ((sig.drop w).take c.input_length)
      else acc.sum j := rfl

lemma accStep_cnt (c : Checker) (sig : List ℚ) (toIdx : ℕ → ℕ × ℕ) (acc : Acc)
    (w j : ℕ) :
    (accStep c sig toIdx acc w).cnt j =
      if (toIdx w).1 ≤ j ∧ j < min (toIdx w).2 acc.len
      then acc.cnt j + 1
      else acc.cnt j := rfl

lemma runAcc_len (c : Checker) (sig : List ℚ) (toIdx : ℕ → ℕ × ℕ) (n : ℕ) :
    (runAcc c sig toIdx n).len = n := by
  unfold runAcc
  refine foldl_invariant (accStep c sig toIdx) (fun a => a.len = n) ?_ _ _ rfl
  intro a b h
  exact h

/-- On every reachable accumulator state, a zero count forces a zero sum:
`output` and `win_count` are updated over exactly the same index ranges. -/
lemma runAcc_cnt_zero_sum (c : Checker) (sig : List ℚ) (toIdx : ℕ → ℕ × ℕ)
    (n j : ℕ) (h : (runAcc c sig toIdx n).cnt j = 0) :
    (runAcc c sig toIdx n).sum j = 0 := by
  unfold runAcc at h ⊢
  refine foldl_invariant (accStep c sig toIdx)
    (fun a => a.cnt j = 0 → a.sum j = 0) ?_ _ _ (fun _ => rfl) h
  intro a w ih h2
  rw [accStep_cnt] at h2
  rw [accStep_sum]
  by_cases hg : (toIdx w).1 ≤ j ∧ j < min (toIdx w).2 a.len
  · rw [if_pos hg] at h2
    exact absurd h2 (Nat.succ_ne_zero _)
  · rw [if_neg hg] at h2
    rw [if_neg hg]
    exact ih h2

lemma windowScore_bounds (c : Checker)
    (hmodel : ∀ w, 0 ≤ c.model w ∧ c.model w ≤ 1) (win : List ℚ) :
    0 ≤ windowScore c win ∧ windowScore c win ≤ 1 := by
  unfold windowScore
  split
  · constructor <;> norm_num
  · exact hmodel win

/-- When every classifier output lies in `[0, 1]`, every accumulated sum is
nonnegative and bounded by the contribution count. -/
lemma runAcc_sum_bounds (c : Checker) (sig : List ℚ) (toIdx : ℕ → ℕ × ℕ)
    (n : ℕ) (hmodel : ∀ w, 0 ≤ c.model w ∧ c.model w ≤ 1) (j : ℕ) :
    0 ≤ (runAcc c sig toIdx n).sum j ∧
      (runAcc c sig toIdx n).sum j ≤ ((runAcc c sig toIdx n).cnt j : ℚ) := by
  unfold runAcc
  refine foldl_invariant (accStep c sig toIdx)
    (fun a => 0 ≤ a.sum j ∧ a.sum j ≤ (a.cnt j : ℚ)) ?_ _ _ (by simp)
  intro a w h
  obtain ⟨h0, h1⟩ := h
  obtain ⟨hs0, hs1⟩ := windowScore_bounds c hmodel ((sig.drop w).take c.input_length)
  rw [accStep_sum, accStep_cnt]
  by_cases hg : (toIdx w).1 ≤ j ∧ j < min (toIdx w).2 a.len
  · rw [if_pos hg, if_pos hg]
    constructor
    · exact add_nonneg h0 hs0
    · push_cast
      exact add_le_add h1 hs1
  · rw [if_neg hg, if_neg hg]
    exact ⟨h0, h1⟩

lemma preciseScores_length (acc : Acc) : (preciseScores acc).length = acc.len := by
  simp [preciseScores]

lemma preciseScores_getElem (acc : Acc) (j : ℕ) (hj : j < acc.len) :
    (preciseScores acc)[j]? = some (npDivide (acc.sum j) (acc.cnt j)) := by
  unfold preciseScores
  rw [List.getElem?_map]
  simp [List.getElem?_range, hj]

lemma calc_precise_length (c : Checker) (acc : Acc) :
    (_calc_precise_scores c acc).length = acc.len := by
  unfold _calc_precise_scores _get_binary _get_three_value
  cases c.return_mode <;> simp [preciseScores]

/-! Concrete instances used by witnesses and counterexamples. -/

/-- A binary_clean checker with window length 2 and stride 2, no cleaning,
threshold 1/2, classifier constantly 0. On the signal `[0, 1, 0]` the single
window `[0, 2)` is scored, and position 2 receives zero contributions. -/
def chkBinary : Checker :=
  { input_length := 2, stride := 2, return_mode := Mode.binary_clean,
    return_type := RetType.full, thresholds := [1/2], clean_data := false,
    check_window := true, min_window := 1/10,
    model := fun _ => 0, cleaner := fun s => s }

/-- A score-mode interval-granularity checker with window length 4 and
stride 2, used on signals shorter than the window. -/
def chkShort : Checker :=
  { input_length := 4, stride := 2, return_mode := Mode.score,
    return_type := RetType.intervals, thresholds := [], clean_data := false,
    check_window := true, min_window := 1/10,
    model := fun _ => 0, cleaner := fun s => s }

/-!
C1. The claim: positions with zero contribution count yield the
undefined/NaN value in every return mode, never one of 1.0, 2.0, 3.0.

On the code this fails in the categorical modes: NaN compares false against
every threshold, so `_get_binary` maps it to 2.0 and `_get_three_value` to
3.0. Only score mode propagates NaN.
-/

/-- C1 counterexample: with checker `chkBinary` (binary_clean) on signal
`[0, 1, 0]`, position 2 has zero contribution count, yet `process_signal`
returns the categorical value 2.0 there — the NaN is remapped to a
category, contradicting the claim. -/
theorem c1_counterexample :
    (finalAcc chkBinary [0, 1, 0]).cnt 2 = 0 ∧
    (process_signal chkBinary [0, 1, 0])[2]? = some (some 2) := by
  constructor
  · simp [finalAcc, chkBinary, cleanedSignal, runAcc, windowStarts, accStep, fullIdx,
      List.range_succ]
  · simp [process_signal, _process_signal_full, chkBinary, cleanedSignal, runAcc,
      windowStarts, accStep, fullIdx, _calc_precise_scores, preciseScores, _get_binary,
      binaryMapper, npDivide, fltLt, windowScore, _check_window_smaller, npMax, npMin,
      List.range_succ]

/-- C1 (amended): a position with zero contribution count yields NaN in
score mode; in the binary modes the NaN is remapped to 2.0 and in
three_value mode to 3.0, for either granularity. -/
theorem c1_zero_count_value (c : Checker) (s : List ℚ) (j : ℕ)
    (hj : j < (finalAcc c s).len)
    (h0 : (finalAcc c s).cnt j = 0) :
    (process_signal c s)[j]? = some (match c.return_mode with
      | Mode.score => (none : EFloat)
      | Mode.binary_clean => some 2
      | Mode.binary_qrs => some 2
      | Mode.three_value => some 3) := by
  rw [process_signal_eq]
  unfold _calc_precise_scores
  have hdiv : npDivide ((finalAcc c s).sum j) ((finalAcc c s).cnt j) = none := by
    simp [npDivide, h0]
  cases hm : c.return_mode
  · rw [preciseScores_getElem _ _ hj, hdiv]
  · unfold _get_three_value
    rw [List.getElem?_map, preciseScores_getElem _ _ hj, hdiv]
    simp [threeMapper, fltLt]
  · unfold _get_binary
    rw [List.getElem?_map, preciseScores_getElem _ _ hj, hdiv]
    simp [binaryMapper, fltLt]
  · unfold _get_binary
    rw [List.getElem?_map, preciseScores_getElem _ _ hj, hdiv]
    simp [binaryMapper, fltLt]

/-- C1 witness: the amended theorem applied to `chkBinary`, `[0, 1, 0]`,
position 2. -/
theorem c1_witness :
    (2 < (finalAcc chkBinary [0, 1, 0]).len ∧
      (finalAcc chkBinary [0, 1, 0]).cnt 2 = 0) ∧
    (process_signal chkBinary [0, 1, 0])[2]? = some (match chkBinary.return_mode with
      | Mode.score => (none : EFloat)
      | Mode.binary_clean => some 2
      | Mode.binary_qrs => some 2
      | Mode.three_value => some 3) := by
  have hj : 2 < (finalAcc chkBinary [0, 1, 0]).len := by
    simp [finalAcc, chkBinary, cleanedSignal, runAcc_len]
  have h0 : (finalAcc chkBinary [0, 1, 0]).cnt 2 = 0 := by
    simp [finalAcc, chkBinary, cleanedSignal, runAcc, windowStarts, accStep, fullIdx,
      List.range_succ]
  exact ⟨⟨hj, h0⟩, c1_zero_count_value chkBinary [0, 1, 0] 2 hj h0⟩

/-!
C6. Output length: `len(signal)` in full mode, `len(signal) // stride` in
interval mode, assuming the cleaner preserves length.
-/

/-- C6: for a positive resolved stride and a length-preserving cleaner, the
output of `process_signal` has the length of the signal in full-granularity
mode and `len(signal) // stride` in interval-granularity mode. -/
theorem c6_output_length (c : Checker) (s : List ℚ)
    (hS : 0 < c.stride)
    (hclean : (cleanedSignal c s).length = s.length) :
    (process_signal c s).length =
      match c.return_type with
      | RetType.full => s.length
      | RetType.intervals => s.length / c.stride := by
  rw [process_signal_eq, calc_precise_length]
  unfold finalAcc
  cases c.return_type <;> simp [runAcc_len, hclean]

/-- C6 witness: the length theorem applied to `chkBinary` on a three-sample
signal. -/
theorem c6_witness :
    (0 < chkBinary.stride ∧
      (cleanedSignal chkBinary [0, 1, 0]).length = ([0, 1, 0] : List ℚ).length) ∧
    (process_signal chkBinary [0, 1, 0]).length =
      (match chkBinary.return_type with
        | RetType.full => ([0, 1, 0] : List ℚ).length
        | RetType.intervals => ([0, 1, 0] : List ℚ).length / chkBinary.stride) := by
  refine ⟨⟨by norm_num [chkBinary], rfl⟩, ?_⟩
  exact c6_output_length chkBinary [0, 1, 0] (by norm_num [chkBinary]) rfl

/-!
C2. Signals shorter than the window: the window plan is empty, so every
count is zero and the classifier is never consulted. The precise scores are
all NaN; score mode returns them as such, while the categorical modes remap
them (see C1). The interval-granularity output has length
`len(signal) // stride`, not 0 as claimed.
-/

lemma short_signal_output (c : Checker) (s : List ℚ)
    (hN : (cleanedSignal c s).length < c.input_length) :
    process_signal c s = List.replicate
      (match c.return_type with
        | RetType.full => (cleanedSignal c s).length
        | RetType.intervals => (cleanedSignal c s).length / c.stride)
      (match c.return_mode with
        | Mode.score => (none : EFloat)
        | Mode.binary_clean => some 2
        | Mode.binary_qrs => some 2
        | Mode.three_value => some 3) := by
  rw [process_signal_eq]
  have hws : windowStarts (cleanedSignal c s).length c.input_length c.stride = [] := by
    simp [windowStarts, hN]
  have hpre : ∀ n : ℕ, preciseScores ⟨n, fun _ => 0, fun _ => 0⟩ =
      List.replicate n (none : EFloat) := by
    intro n
    simp [preciseScores, npDivide, List.map_const]
  have hcalc : ∀ n : ℕ, _calc_precise_scores c ⟨n, fun _ => 0, fun _ => 0⟩ =
      List.replicate n (match c.return_mode with
        | Mode.score => (none : EFloat)
        | Mode.binary_clean => some 2
        | Mode.binary_qrs => some 2
        | Mode.three_value => some 3) := by
    intro n
    cases hm : c.return_mode <;>
      simp [_calc_precise_scores, hm, _get_binary, _get_three_value, hpre,
        binaryMapper, threeMapper, fltLt]
  have hfull : runAcc c (cleanedSignal c s) (fullIdx c) (cleanedSignal c s).length
      = ⟨(cleanedSignal c s).length, fun _ => 0, fun _ => 0⟩ := by
    unfold runAcc
    rw [hws]
    rfl
  have hint : runAcc c (cleanedSignal c s) (intervalIdx c)
      ((cleanedSignal c s).length / c.stride)
      = ⟨(cleanedSignal c s).length / c.stride, fun _ => 0, fun _ => 0⟩ := by
    unfold runAcc
    rw [hws]
    rfl
  unfold finalAcc
  cases hrt : c.return_type
  · simp only [hfull, hcalc]
  · simp only [hint, hcalc]

/-- C2 counterexample: `chkShort` has window length 4, stride 2, interval
granularity; the three-sample signal `[0, 0, 0]` is shorter than the
window, yet the output has length `3 // 2 = 1`, not 0 as the claim
states. -/
theorem c2_counterexample :
    ([0, 0, 0] : List ℚ).length < chkShort.input_length ∧
    chkShort.return_type = RetType.intervals ∧
    (process_signal chkShort [0, 0, 0]).length = 1 ∧
    (process_signal chkShort [0, 0, 0]).length ≠ 0 := by
  have h : process_signal chkShort [0, 0, 0] = [none] := by
    have := short_signal_output chkShort [0, 0, 0] (by norm_num [chkShort, cleanedSignal])
    simpa [chkShort, cleanedSignal] using this
  rw [h]
  refine ⟨by norm_num [chkShort], rfl, rfl, by norm_num⟩

/-- C2 (amended): for a signal shorter than the window, the classifier is
never invoked (the output does not depend on the model collaborator), every
contribution count is zero, and the output is uniformly the zero-count
value — NaN in score mode, 2.0 in the binary modes, 3.0 in three_value
mode — of length `len(signal)` in full-granularity mode and
`len(signal) // stride` in interval-granularity mode. -/
theorem c2_short_signal (c : Checker) (s : List ℚ)
    (hN : (cleanedSignal c s).length < c.input_length) :
    (∀ f : List ℚ → ℚ, process_signal { c with model := f } s = process_signal c s) ∧
    process_signal c s = List.replicate
      (match c.return_type with
        | RetType.full => (cleanedSignal c s).length
        | RetType.intervals => (cleanedSignal c s).length / c.stride)
      (match c.return_mode with
        | Mode.score => (none : EFloat)
        | Mode.binary_clean => some 2
        | Mode.binary_qrs => some 2
        | Mode.three_value => some 3) := by
  have hbase := short_signal_output c s hN
  refine ⟨?_, hbase⟩
  intro f
  have hmod := short_signal_output { c with model := f } s hN
  rw [hmod, hbase]
  rfl

/-- C2 witness: the amended theorem applied to `chkShort` on `[0, 0, 0]`. -/
theorem c2_witness :
    ((cleanedSignal chkShort [0, 0, 0]).length < chkShort.input_length) ∧
    ((∀ f : List ℚ → ℚ,
        process_signal { chkShort with model := f } [0, 0, 0] =
          process_signal chkShort [0, 0, 0]) ∧
      process_signal chkShort [0, 0, 0] = List.replicate
        (match chkShort.return_type with
          | RetType.full => (cleanedSignal chkShort [0, 0, 0]).length
          | RetType.intervals => (cleanedSignal chkShort [0, 0, 0]).length / chkShort.stride)
        (match chkShort.return_mode with
          | Mode.score => (none : EFloat)
          | Mode.binary_clean => some 2
          | Mode.binary_qrs => some 2
          | Mode.three_value => some 3)) := by
  have hN : (cleanedSignal chkShort [0, 0, 0]).length < chkShort.input_length := by
    norm_num [chkShort, cleanedSignal]
  exact ⟨hN, c2_short_signal chkShort [0, 0, 0] hN⟩

/-!
C4. The degeneracy short-circuit. The claim says the fixed score 1.0 is used
only when the check is enabled; but the source never reads the stored
`self.check_window` flag — `_check_window_smaller` is called unconditionally
on lines 193 and 210 — so a near-flat window scores 1.0 even with the check
disabled. This contradicts the constructor's own docstring for
`check_window_range` ("Whether each window should be checked for range").
-/

/-- A checker with the degeneracy check disabled (`check_window := false`),
window length 2, stride 2, score mode, classifier constantly 1/2. -/
def chkFlagOff : Checker :=
  { input_length := 2, stride := 2, return_mode := Mode.score,
    return_type := RetType.full, thresholds := [], clean_data := false,
    check_window := false, min_window := 1/10,
    model := fun _ => 1/2, cleaner := fun s => s }

/-- C4: code behavior at the failing input. With the degeneracy check
disabled and a flat window `[0, 0]` (range 0 < 1/10) whose classifier score
is 1/2, the window still scores the fixed value 1.0, and the pipeline
returns 1.0 rather than the classifier's 1/2 — the stored flag is ignored. -/
theorem c4_flag_ignored :
    chkFlagOff.check_window = false ∧
    chkFlagOff.model [0, 0] = 1/2 ∧
    windowScore chkFlagOff [0, 0] = 1 ∧
    (process_signal chkFlagOff [0, 0])[0]? = some (some 1) := by
  refine ⟨rfl, rfl, ?_, ?_⟩
  · norm_num [windowScore, _check_window_smaller, npMax, npMin, chkFlagOff]
  · simp [process_signal, _process_signal_full, chkFlagOff, cleanedSignal, runAcc,
      windowStarts, accStep, fullIdx, _calc_precise_scores, preciseScores,
      npDivide, windowScore, _check_window_smaller, npMax, npMin, List.range_succ]

/-!
C5. Threshold reduction of defined mean scores.
-/

/-- A three_value checker with thresholds `[3/10, 7/10]`. -/
def chkThree : Checker :=
  { input_length := 2, stride := 2, return_mode := Mode.three_value,
    return_type := RetType.full, thresholds := [3/10, 7/10], clean_data := false,
    check_window := true, min_window := 1/10,
    model := fun _ => 0, cleaner := fun s => s }

/-- The conclusion of claim C5 for a checker `c` and a defined mean score
`m`: the three_value mapper sends `m` to 1.0 below `thresholds[0]`, to 2.0
in `[thresholds[0], thresholds[1])`, to 3.0 at or above `thresholds[1]`;
the binary mapper sends `m` to 1.0 below `thresholds[0]` and to 2.0
otherwise; and the binary_clean and binary_qrs reductions are the identical
function. -/
def thresholdMappingProp (c : Checker) (m : ℚ) : Prop :=
  (m < c.thresholds.getD 0 0 → threeMapper c (some m) = some 1) ∧
  (c.thresholds.getD 0 0 ≤ m ∧ m < c.thresholds.getD 1 0 → threeMapper c (some m) = some 2) ∧
  (c.thresholds.getD 1 0 ≤ m → threeMapper c (some m) = some 3) ∧
  (m < c.thresholds.getD 0 0 → binaryMapper c (some m) = some 1) ∧
  (c.thresholds.getD 0 0 ≤ m → binaryMapper c (some m) = some 2) ∧
  (∀ acc : Acc, _calc_precise_scores { c with return_mode := Mode.binary_clean } acc =
      _calc_precise_scores { c with return_mode := Mode.binary_qrs } acc)

/-- C5: with stored thresholds sorted ascending, every defined mean score is
reduced exactly as the claim states, in three_value and in both binary
modes, the latter two through identical logic. -/
theorem c5_threshold_mapping (c : Checker) (m : ℚ)
    (hsorted : c.thresholds.getD 0 0 ≤ c.thresholds.getD 1 0) :
    thresholdMappingProp c m := by
  unfold thresholdMappingProp
  simp only [List.getD_eq_getElem?_getD] at hsorted ⊢
  refine ⟨?_, ?_, ?_, ?_, ?_, ?_⟩
  · intro h
    simp [threeMapper, fltLt, List.getD_eq_getElem?_getD, h]
  · rintro ⟨h0, h1⟩
    simp [threeMapper, fltLt, List.getD_eq_getElem?_getD, not_lt.2 h0, h1]
  · intro h
    simp [threeMapper, fltLt, List.getD_eq_getElem?_getD,
      not_lt.2 (le_trans hsorted h), not_lt.2 h]
  · intro h
    simp [binaryMapper, fltLt, List.getD_eq_getElem?_getD, h]
  · intro h
    simp [binaryMapper, fltLt, List.getD_eq_getElem?_getD, not_lt.2 h]
  · intro acc
    rfl

/-- C5 witness: the mapping theorem at `chkThree` and mean score 1/2. -/
theorem c5_witness :
    (chkThree.thresholds.getD 0 0 ≤ chkThree.thresholds.getD 1 0) ∧
    thresholdMappingProp chkThree (1/2) :=
  ⟨by norm_num [chkThree], c5_threshold_mapping chkThree (1/2) (by norm_num [chkThree])⟩

/-!
C8. In continuous (score) mode, if the classifier only produces values in
`[0, 1]`, then every defined output value is a mean of such values and lies
in `[0, 1]`, in both granularities.
-/

lemma finalAcc_sum_bounds (c : Checker) (s : List ℚ)
    (hmodel : ∀ w, 0 ≤ c.model w ∧ c.model w ≤ 1) (j : ℕ) :
    0 ≤ (finalAcc c s).sum j ∧ (finalAcc c s).sum j ≤ ((finalAcc c s).cnt j : ℚ) := by
  unfold finalAcc
  cases c.return_type
  · exact runAcc_sum_bounds c _ _ _ hmodel j
  · exact runAcc_sum_bounds c _ _ _ hmodel j

/-- C8: in score mode, under the hypothesis that the classifier returns
values in `[0, 1]`, every defined output value of `process_signal` lies in
`[0, 1]` (for either granularity, which is part of the checker state). -/
theorem c8_score_outputs_in_unit_interval (c : Checker) (s : List ℚ)
    (hmode : c.return_mode = Mode.score)
    (hmodel : ∀ w, 0 ≤ c.model w ∧ c.model w ≤ 1)
    (j : ℕ) (v : ℚ)
    (hv : (process_signal c s)[j]? = some (some v)) :
    0 ≤ v ∧ v ≤ 1 := by
  rw [process_signal_eq] at hv
  simp only [_calc_precise_scores, hmode] at hv
  have hjlen : j < (preciseScores (finalAcc c s)).length := by
    rw [List.getElem?_eq_some] at hv
    exact hv.1
  rw [preciseScores_length] at hjlen
  rw [preciseScores_getElem _ _ hjlen] at hv
  have hval : npDivide ((finalAcc c s).sum j) ((finalAcc c s).cnt j) = some v :=
    Option.some_injective _ hv
  unfold npDivide at hval
  by_cases hc : (finalAcc c s).cnt j = 0
  · rw [if_pos hc] at hval
    exact absurd hval (by simp)
  · rw [if_neg hc] at hval
    have hveq : (finalAcc c s).sum j / ((finalAcc c s).cnt j : ℚ) = v :=
      Option.some_injective _ hval
    obtain ⟨h0, h1⟩ := finalAcc_sum_bounds c s hmodel j
    have hcpos : (0 : ℚ) < ((finalAcc c s).cnt j : ℚ) := by
      exact_mod_cast Nat.pos_of_ne_zero hc
    constructor
    · rw [← hveq]
      exact div_nonneg h0 hcpos.le
    · rw [← hveq, div_le_one hcpos]
      exact h1

/-- A score-mode full-granularity checker whose classifier returns 1/2,
applied to `[0, 5]`: a single window with score 1/2 and count 1. -/
def chkScore : Checker :=
  { input_length := 2, stride := 2, return_mode := Mode.score,
    return_type := RetType.full, thresholds := [], clean_data := false,
    check_window := true, min_window := 1/10,
    model := fun _ => 1/2, cleaner := fun s => s }

/-- C8 witness: the range theorem at `chkScore` on `[0, 5]`, position 0,
defined value 1/2. -/
theorem c8_witness :
    chkScore.return_mode = Mode.score ∧
    (∀ w, 0 ≤ chkScore.model w ∧ chkScore.model w ≤ 1) ∧
    (process_signal chkScore [0, 5])[0]? = some (some (1/2)) ∧
    (0 ≤ (1/2 : ℚ) ∧ (1/2 : ℚ) ≤ 1) := by
  have hmodel : ∀ w, 0 ≤ chkScore.model w ∧ chkScore.model w ≤ 1 := by
    intro w
    constructor <;> norm_num [chkScore]
  have hv : (process_signal chkScore [0, 5])[0]? = some (some (1/2)) := by
    simp [process_signal, _process_signal_full, chkScore, cleanedSignal, runAcc,
      windowStarts, accStep, fullIdx, _calc_precise_scores, preciseScores,
      npDivide, windowScore, _check_window_smaller, npMax, npMin, List.range_succ]
    norm_num
  exact ⟨rfl, hmodel,
    hv, c8_score_outputs_in_unit_interval chkScore [0, 5] rfl hmodel 0 (1/2) hv⟩

/-!
C3. Per-window contribution in interval mode: each scored window starting
at `w` adds its score exactly once to each accumulator index in
`[w // S, (w + L) // S)`, increments each of those counts exactly once,
touches no other index, and covers at least one index (its score is never
dropped).
-/

/-- The conclusion of claim C3 for one window `w` of the plan and one
accumulator index `j`: the interval-mode accumulation step adds the
window's score to `sum j` and one to `cnt j` exactly when
`w // S ≤ j < (w + L) // S`, leaves them unchanged otherwise, and the
covered index range is nonempty. -/
def windowContribution (c : Checker) (sig : List ℚ) (acc : Acc) (w j : ℕ) : Prop :=
  ((accStep c sig (intervalIdx c) acc w).sum j =
      acc.sum j + (if w / c.stride ≤ j ∧ j < (w + c.input_length) / c.stride
        then windowScore c ((sig.drop w).take c.input_length) else 0)) ∧
  ((accStep c sig (intervalIdx c) acc w).cnt j =
      acc.cnt j + (if w / c.stride ≤ j ∧ j < (w + c.input_length) / c.stride
        then 1 else 0)) ∧
  w / c.stride < (w + c.input_length) / c.stride

/-- C3: for every window of the interval-mode plan (positive stride
dividing the window length) and an accumulation buffer of the allocated
length `len(signal) // stride`, the window contributes its score and a
count of one exactly once to each index of `[w // S, (w + L) // S)` and to
no other index, and that range is nonempty. -/
theorem c3_interval_window_contribution (c : Checker) (sig : List ℚ) (acc : Acc)
    (w j : ℕ)
    (hS : 0 < c.stride) (hdvd : c.stride ∣ c.input_length) (hL : 0 < c.input_length)
    (hw : w ∈ windowStarts sig.length c.input_length c.stride)
    (hlen : acc.len = sig.length / c.stride) :
    windowContribution c sig acc w j := by
  unfold windowStarts at hw
  by_cases hNL : sig.length < c.input_length
  · rw [if_pos hNL] at hw
    exact absurd hw (List.not_mem_nil w)
  rw [if_neg hNL] at hw
  obtain ⟨k, hk, rfl⟩ := List.mem_map.1 hw
  have hkK : k ≤ (sig.length - c.input_length) / c.stride :=
    Nat.lt_succ_iff.1 (List.mem_range.1 hk)
  have hwL : k * c.stride + c.input_length ≤ sig.length := by
    have h1 : k * c.stride ≤ (sig.length - c.input_length) / c.stride * c.stride :=
      Nat.mul_le_mul_right c.stride hkK
    have h2 : (sig.length - c.input_length) / c.stride * c.stride
        ≤ sig.length - c.input_length := Nat.div_mul_le_self _ _
    omega
  obtain ⟨q, hq⟩ := hdvd
  have hq0 : 0 < q := by
    rcases Nat.eq_zero_or_pos q with h | h
    · rw [h, Nat.mul_zero] at hq
      omega
    · exact h
  have ha : k * c.stride / c.stride = k := Nat.mul_div_cancel k hS
  have hb : (k * c.stride + c.input_length) / c.stride = k + q := by
    rw [hq]
    have heq : k * c.stride + c.stride * q = c.stride * (k + q) := by ring
    rw [heq, Nat.mul_div_cancel_left _ hS]
  have hble : (k * c.stride + c.input_length) / c.stride ≤ acc.len := by
    rw [hlen]
    exact Nat.div_le_div_right hwL
  have hmin : min ((k * c.stride + c.input_length) / c.stride) acc.len
      = (k * c.stride + c.input_length) / c.stride := min_eq_left hble
  have hidx1 : (intervalIdx c (k * c.stride)).1 = k * c.stride / c.stride := rfl
  have hidx2 : (intervalIdx c (k * c.stride)).2
      = (k * c.stride + c.input_length) / c.stride := rfl
  refine ⟨?_, ?_, ?_⟩
  · rw [accStep_sum, hidx1, hidx2, hmin]
    split_ifs with h <;> simp
  · rw [accStep_cnt, hidx1, hidx2, hmin]
    split_ifs with h <;> simp
  · rw [ha, hb]
    omega

/-- A score-mode interval-granularity checker with window length 4 and
stride 2, used with a six-sample signal whose plan is `[0, 2]`. -/
def chkInterval : Checker :=
  { input_length := 4, stride := 2, return_mode := Mode.score,
    return_type := RetType.intervals, thresholds := [], clean_data := false,
    check_window := true, min_window := 1/10,
    model := fun _ => 0, cleaner := fun s => s }

/-- C3 witness: the contribution theorem at `chkInterval` on a six-sample
signal, window start 2, buffer index 1, fresh buffers of length 3. -/
theorem c3_witness :
    (0 < chkInterval.stride ∧ chkInterval.stride ∣ chkInterval.input_length ∧
      0 < chkInterval.input_length ∧
      2 ∈ windowStarts ([0, 0, 0, 0, 0, 0] : List ℚ).length
        chkInterval.input_length chkInterval.stride ∧
      (Acc.mk 3 (fun _ => 0) (fun _ => 0)).len
        = ([0, 0, 0, 0, 0, 0] : List ℚ).length / chkInterval.stride) ∧
    windowContribution chkInterval [0, 0, 0, 0, 0, 0]
      (Acc.mk 3 (fun _ => 0) (fun _ => 0)) 2 1 := by
  have h1 : 0 < chkInterval.stride := by norm_num [chkInterval]
  have h2 : chkInterval.stride ∣ chkInterval.input_length := by decide
  have h3 : 0 < chkInterval.input_length := by norm_num [chkInterval]
  have h4 : 2 ∈ windowStarts ([0, 0, 0, 0, 0, 0] : List ℚ).length
      chkInterval.input_length chkInterval.stride := by
    simp [windowStarts, chkInterval, List.range_succ]
  have h5 : (Acc.mk 3 (fun _ => 0) (fun _ => 0)).len
      = ([0, 0, 0, 0, 0, 0] : List ℚ).length / chkInterval.stride := by
    simp [chkInterval]
  exact ⟨⟨h1, h2, h3, h4, h5⟩,
    c3_interval_window_contribution chkInterval [0, 0, 0, 0, 0, 0] _ 2 1 h1 h2 h3 h4 h5⟩

/-!
C9. Purity of `process_signal`: the method reads but never writes the
receiver state, so with the receiver threaded explicitly, a second call on
the state returned by the first call yields the identical output.
-/

/-- C9: `process_signal` leaves the checker state unchanged, and a second
invocation on the returned state with the same signal produces the same
output (the collaborators are pure functions in this embedding, matching
the claim's determinism hypothesis). -/
theorem c9_process_signal_pure (c : Checker) (s : List ℚ) :
    (process_signal_method c s).2 = c ∧
    (process_signal_method (process_signal_method c s).2 s).1 =
      (process_signal_method c s).1 :=
  ⟨rfl, rfl⟩

/-!
C7. Threshold validation at construction. The claim's rule says continuous
(score) mode accepts absent or empty thresholds; the code accepts only
absent (`None`): an explicitly supplied empty list fails the
`thresholds is not None` test of line 108 and raises. The rest of the rule
matches the code, with validation failing on every violation and the
three_value pair stored sorted.
-/

/-- C7 counterexample: in score mode an explicitly supplied empty threshold
list satisfies the claimed arity/range rule ("absent or empty"), yet
construction fails — `validateThresholds` returns an error regardless of
what the default registry would have supplied (instantiated here at an
absent default). -/
theorem c7_counterexample :
    specThresholdRule Mode.score (ThresholdArg.lst []) = true ∧
    (validateThresholds Mode.score (ThresholdArg.lst []) ThresholdArg.absent).isOk
      = false := by
  constructor
  · rfl
  · rfl

lemma validateThresholdsCore_isOk (mode : Mode) (th : ThresholdArg) :
    (validateThresholdsCore mode th).isOk = amendedThresholdRule mode th := by
  cases mode <;> cases th
  case score.absent => rfl
  case score.flt t => rfl
  case score.lst l => cases l <;> rfl
  case three_value.absent => rfl
  case three_value.flt t => rfl
  case three_value.lst l =>
    rcases l with _ | ⟨a, _ | ⟨b, _ | ⟨x, rest2⟩⟩⟩
    · rfl
    · rfl
    · by_cases hA : 0 ≤ a ∧ a ≤ 1 <;> by_cases hB : 0 ≤ b ∧ b ≤ 1 <;>
        simp [validateThresholdsCore, amendedThresholdRule, hA, hB,
          Except.isOk, Except.toBool]
    · simp [validateThresholdsCore, amendedThresholdRule, Except.isOk, Except.toBool]
  case binary_clean.absent => rfl
  case binary_clean.flt t =>
    by_cases hP : 0 ≤ t ∧ t ≤ 1 <;>
      simp [validateThresholdsCore, amendedThresholdRule, hP,
        Except.isOk, Except.toBool]
  case binary_clean.lst l =>
    rcases l with _ | ⟨a, _ | ⟨b, rest⟩⟩
    · rfl
    · by_cases hP : 0 ≤ a ∧ a ≤ 1 <;>
        simp [validateThresholdsCore, amendedThresholdRule, hP,
          Except.isOk, Except.toBool]
    · simp [validateThresholdsCore, amendedThresholdRule, Except.isOk, Except.toBool]
  case binary_qrs.absent => rfl
  case binary_qrs.flt t =>
    by_cases hP : 0 ≤ t ∧ t ≤ 1 <;>
      simp [validateThresholdsCore, amendedThresholdRule, hP,
        Except.isOk, Except.toBool]
  case binary_qrs.lst l =>
    rcases l with _ | ⟨a, _ | ⟨b, rest⟩⟩
    · rfl
    · by_cases hP : 0 ≤ a ∧ a ≤ 1 <;>
        simp [validateThresholdsCore, amendedThresholdRule, hP,
          Except.isOk, Except.toBool]
    · simp [validateThresholdsCore, amendedThresholdRule, Except.isOk, Except.toBool]

lemma validateThresholdsCore_sorted (mode : Mode) (th : ThresholdArg) (l : List ℚ)
    (h : validateThresholdsCore mode th = Except.ok (ThresholdArg.lst l)) :
    List.Sorted (fun a b => a ≤ b) l := by
  cases mode <;> cases th <;>
    simp only [validateThresholdsCore] at h
  all_goals try exact Except.noConfusion h
  case score.absent => exact ThresholdArg.noConfusion (Except.ok.inj h)
  case three_value.lst l0 =>
    split_ifs at h with h1 h2
    obtain rfl : npSort l0 = l := by simpa using h
    exact List.sorted_insertionSort _ l0
  case binary_clean.flt t =>
    split_ifs at h with h1 h2
    obtain rfl : [t] = l := by simpa using h
    exact List.sorted_singleton t
  case binary_clean.lst l0 =>
    split_ifs at h with h1 h2
    obtain rfl : l0 = l := by simpa using h
    rcases l0 with _ | ⟨a, _ | ⟨b, rest2⟩⟩
    · simp at h1
    · exact List.sorted_singleton a
    · simp at h1
  case binary_qrs.flt t =>
    split_ifs at h with h1 h2
    obtain rfl : [t] = l := by simpa using h
    exact List.sorted_singleton t
  case binary_qrs.lst l0 =>
    split_ifs at h with h1 h2
    obtain rfl : l0 = l := by simpa using h
    rcases l0 with _ | ⟨a, _ | ⟨b, rest2⟩⟩
    · simp at h1
    · exact List.sorted_singleton a
    · simp at h1

/-- C7 (amended): threshold validation succeeds exactly when the effective
thresholds (the supplied ones, or the registry default when absent) satisfy
the amended rule — score mode: absent only (an empty list is rejected);
binary modes: exactly one value in `[0, 1]`, a bare float being treated as
a one-element list; three_value: exactly two values each in `[0, 1]` — and
every stored threshold list is sorted ascending. Failure always carries an
error (`Except.error`), so no partially-validated value is produced. -/
theorem c7_threshold_validation (mode : Mode) (supplied defaultTh : ThresholdArg) :
    ((validateThresholds mode supplied defaultTh).isOk =
      amendedThresholdRule mode (effectiveThresholds supplied defaultTh)) ∧
    (∀ l : List ℚ, validateThresholds mode supplied defaultTh =
        Except.ok (ThresholdArg.lst l) → List.Sorted (fun a b => a ≤ b) l) := by
  constructor
  · exact validateThresholdsCore_isOk mode (effectiveThresholds supplied defaultTh)
  · intro l h
    exact validateThresholdsCore_sorted mode (effectiveThresholds supplied defaultTh) l h

/-!
C10. A bare float `t ∈ [0, 1]` supplied as the thresholds argument in a
binary mode is coerced to `[t]` by lines 111-112 and then accepted,
identically to supplying `[t]`.
-/

/-- The conclusion of claim C10 for a bare float `t` and a registry default:
construction stores `[t]` in both binary modes, exactly as it would for the
supplied list `[t]`. -/
def bareFloatAccepted (t : ℚ) (defaultTh : ThresholdArg) : Prop :=
  validateThresholds Mode.binary_clean (ThresholdArg.flt t) defaultTh =
      Except.ok (ThresholdArg.lst [t]) ∧
  validateThresholds Mode.binary_qrs (ThresholdArg.flt t) defaultTh =
      Except.ok (ThresholdArg.lst [t]) ∧
  validateThresholds Mode.binary_clean (ThresholdArg.flt t) defaultTh =
      validateThresholds Mode.binary_clean (ThresholdArg.lst [t]) defaultTh ∧
  validateThresholds Mode.binary_qrs (ThresholdArg.flt t) defaultTh =
      validateThresholds Mode.binary_qrs (ThresholdArg.lst [t]) defaultTh

/-- C10: a bare float `t` with `0 ≤ t ≤ 1` supplied as thresholds in either
binary mode is accepted and stored as the one-element list `[t]`, behaving
identically to supplying `[t]`. -/
theorem c10_bare_float (t : ℚ) (defaultTh : ThresholdArg)
    (h0 : 0 ≤ t) (h1 : t ≤ 1) :
    bareFloatAccepted t defaultTh := by
  unfold bareFloatAccepted validateThresholds effectiveThresholds validateThresholdsCore
  simp [h0, h1]

/-- C10 witness: the acceptance theorem at `t = 1/2` with an absent
registry default. -/
theorem c10_witness :
    (0 ≤ (1/2 : ℚ) ∧ (1/2 : ℚ) ≤ 1) ∧ bareFloatAccepted (1/2) ThresholdArg.absent :=
  ⟨by norm_num, c10_bare_float (1/2) ThresholdArg.absent (by norm_num) (by norm_num)⟩

end EcgQuality
